import Mathlib

/-!
Verification of the cbba-mobility offline recording subsystem.

The development shallowly embeds:
* the local recording store (`src/app/services/recording-store.ts`) over the
  drizzle schema (`src/app/db/schema.ts`) as pure functions on a `Store` value,
* the background location task (`src/app/services/background-location.ts`),
* the sync engine (`syncOneRecording` / `syncPendingRecordings`).

Impure inputs of the code become explicit parameters: `new Date().toISOString()`
becomes a `now : String` argument, the network becomes an `ApiModel` oracle,
and connectivity becomes a `Bool`.  SQLite `real` columns are modelled as `Rat`
(no claim computes with coordinates), `text` timestamps as `String` with the
byte-wise order SQLite uses for `ORDER BY` on text.
-/

/-- Status enum of the `recordings` table (db/schema.ts, `recordings.status`). -/
inductive RecStatus where
  | in_progress
  | pending_sync
  | synced
  | discarded
  | cancelled
deriving DecidableEq, Repr

/-- A row of the `recordings` table (db/schema.ts). -/
structure Recording where
  id : Nat
  serverId : Option Nat
  status : RecStatus
  lineId : Option Int
  lineName : Option String
  direction : Option String
  deviceModel : Option String
  osVersion : Option String
  notes : Option String
  startedAt : String
  endedAt : Option String
  lastActivityAt : String
  syncedAt : Option String
  createdAt : String
deriving DecidableEq, Repr

/-- A row of the `location_points` table (db/schema.ts). -/
structure LocationPointRow where
  id : Nat
  recordingId : Nat
  timestamp : String
  latitude : Rat
  longitude : Rat
  altitude : Option Rat
  speed : Option Rat
  bearing : Option Rat
  horizontalAccuracy : Option Rat
  verticalAccuracy : Option Rat
deriving DecidableEq, Repr

/-- A row of the `sensor_readings` table (db/schema.ts). -/
structure SensorReadingRow where
  id : Nat
  recordingId : Nat
  timestamp : String
  accelX : Option Rat
  accelY : Option Rat
  accelZ : Option Rat
  gyroX : Option Rat
  gyroY : Option Rat
  gyroZ : Option Rat
  pressure : Option Rat
  magneticHeading : Option Rat
deriving DecidableEq, Repr

/-- Wire shape `LocationPoint` of services/api.ts. -/
structure ApiLocationPoint where
  timestamp : String
  latitude : Rat
  longitude : Rat
  altitude : Option Rat
  speed : Option Rat
  bearing : Option Rat
  horizontal_accuracy : Option Rat
  vertical_accuracy : Option Rat
deriving DecidableEq, Repr

/-- Wire shape `SensorReading` of services/api.ts. -/
structure ApiSensorReading where
  timestamp : String
  accel_x : Option Rat
  accel_y : Option Rat
  accel_z : Option Rat
  gyro_x : Option Rat
  gyro_y : Option Rat
  gyro_z : Option Rat
  pressure : Option Rat
  magnetic_heading : Option Rat
deriving DecidableEq, Repr

/-- The local SQLite database: the three tables touched by the recording store,
plus the autoincrement counters of their integer primary keys. -/
structure Store where
  recordings : List Recording
  locationPoints : List LocationPointRow
  sensorReadings : List SensorReadingRow
  nextRecordingId : Nat
  nextLocationPointId : Nat
  nextSensorReadingId : Nat
deriving DecidableEq, Repr

/-- Options accepted by `createRecording` (recording-store.ts, lines 19-23). -/
structure CreateOpts where
  direction : Option String
  deviceModel : Option String
  osVersion : Option String
deriving DecidableEq, Repr

/-- recording-store.ts `createRecording`: inserts a fresh `in_progress` row with
`startedAt = lastActivityAt = createdAt = now` and returns it.  The source
performs no check of any existing row before the insert. -/
def createRecording (s : Store) (opts : CreateOpts) (now : String) :
    Recording × Store :=
  let row : Recording :=
    { id := s.nextRecordingId
      serverId := none
      status := RecStatus.in_progress
      lineId := none
      lineName := none
      direction := opts.direction
      deviceModel := opts.deviceModel
      osVersion := opts.osVersion
      notes := none
      startedAt := now
      endedAt := none
      lastActivityAt := now
      syncedAt := none
      createdAt := now }
  (row,
    { s with
      recordings := s.recordings ++ [row]
      nextRecordingId := s.nextRecordingId + 1 })

/-- One iteration of the insert loop of `addLocationPoints`. -/
def insertLocationPoint (s : Store) (recordingId : Nat) (p : ApiLocationPoint) :
    Store :=
  { s with
    locationPoints := s.locationPoints ++
      [{ id := s.nextLocationPointId
         recordingId := recordingId
         timestamp := p.timestamp
         latitude := p.latitude
         longitude := p.longitude
         altitude := p.altitude
         speed := p.speed
         bearing := p.bearing
         horizontalAccuracy := p.horizontal_accuracy
         verticalAccuracy := p.vertical_accuracy }]
    nextLocationPointId := s.nextLocationPointId + 1 }

/-- recording-store.ts `addLocationPoints`: inserts one `location_points` row
per element of `points`, in order.  No other table is touched. -/
def addLocationPoints (s : Store) (recordingId : Nat)
    (points : List ApiLocationPoint) : Store :=
  match points with
  | [] => s
  | p :: rest => addLocationPoints (insertLocationPoint s recordingId p) recordingId rest

/-- One iteration of the insert loop of `addSensorReadings`. -/
def insertSensorReading (s : Store) (recordingId : Nat) (r : ApiSensorReading) :
    Store :=
  { s with
    sensorReadings := s.sensorReadings ++
      [{ id := s.nextSensorReadingId
         recordingId := recordingId
         timestamp := r.timestamp
         accelX := r.accel_x
         accelY := r.accel_y
         accelZ := r.accel_z
         gyroX := r.gyro_x
         gyroY := r.gyro_y
         gyroZ := r.gyro_z
         pressure := r.pressure
         magneticHeading := r.magnetic_heading }]
    nextSensorReadingId := s.nextSensorReadingId + 1 }

/-- recording-store.ts `addSensorReadings`: inserts one `sensor_readings` row
per element of `readings`, in order.  No other table is touched. -/
def addSensorReadings (s : Store) (recordingId : Nat)
    (readings : List ApiSensorReading) : Store :=
  match readings with
  | [] => s
  | r :: rest => addSensorReadings (insertSensorReading s recordingId r) recordingId rest

/-- The `status` argument of `finalizeRecording` is restricted by its TypeScript
type to `'pending_sync' | 'discarded'`. -/
inductive FinalizeStatus where
  | pending_sync
  | discarded
deriving DecidableEq, Repr

/-- Coercion of the finalize argument into the stored status enum. -/
def FinalizeStatus.toRecStatus : FinalizeStatus → RecStatus
  | .pending_sync => RecStatus.pending_sync
  | .discarded => RecStatus.discarded

/-- recording-store.ts `finalizeRecording`: `UPDATE recordings SET status,
lineId, lineName, endedAt = now, lastActivityAt = now WHERE id = recordingId`.
There is no condition on the current status. -/
def finalizeRecording (s : Store) (recordingId : Nat) (lineId : Option Int)
    (lineName : Option String) (status : FinalizeStatus) (now : String) :
    Store :=
  { s with
    recordings := s.recordings.map fun r =>
      if r.id = recordingId then
        { r with
          status := status.toRecStatus
          lineId := lineId
          lineName := lineName
          endedAt := some now
          lastActivityAt := now }
      else r }

/-- recording-store.ts `cancelRecording`: `UPDATE recordings SET status =
cancelled, endedAt = now WHERE id = recordingId`.  Note that, unlike
`finalizeRecording`, it does not write `lastActivityAt`. -/
def cancelRecording (s : Store) (recordingId : Nat) (now : String) : Store :=
  { s with
    recordings := s.recordings.map fun r =>
      if r.id = recordingId then
        { r with
          status := RecStatus.cancelled
          endedAt := some now }
      else r }

/-- The row list produced by the query inside `getInProgressRecording`:
`SELECT * FROM recordings WHERE status = in_progress LIMIT 1`. -/
def getInProgressRows (s : Store) : List Recording :=
  (s.recordings.filter fun r => decide (r.status = RecStatus.in_progress)).take 1

/-- recording-store.ts `getInProgressRecording`: first row of the limited
query, or `undefined`. -/
def getInProgressRecording (s : Store) : Option Recording :=
  (getInProgressRows s).head?

/-- recording-store.ts `getRecording`: `SELECT * FROM recordings WHERE id =
recordingId` and `.get()` (first row or `undefined`). -/
def getRecording (s : Store) (recordingId : Nat) : Option Recording :=
  (s.recordings.filter fun r => decide (r.id = recordingId)).head?

/-- recording-store.ts `getPendingSyncRecordings`: all rows whose status is
`pending_sync`. -/
def getPendingSyncRecordings (s : Store) : List Recording :=
  s.recordings.filter fun r => decide (r.status = RecStatus.pending_sync)

/-- Comparison used to model `ORDER BY timestamp ASC` on `location_points`. -/
def locRowLE (a b : LocationPointRow) : Prop := a.timestamp ≤ b.timestamp

instance : DecidableRel locRowLE := fun a b =>
  inferInstanceAs (Decidable (a.timestamp ≤ b.timestamp))

instance : IsTotal LocationPointRow locRowLE :=
  ⟨fun a b => le_total a.timestamp b.timestamp⟩

instance : IsTrans LocationPointRow locRowLE :=
  ⟨fun _ _ _ hab hbc => le_trans hab hbc⟩

/-- Comparison used to model `ORDER BY timestamp ASC` on `sensor_readings`. -/
def senRowLE (a b : SensorReadingRow) : Prop := a.timestamp ≤ b.timestamp

instance : DecidableRel senRowLE := fun a b =>
  inferInstanceAs (Decidable (a.timestamp ≤ b.timestamp))

instance : IsTotal SensorReadingRow senRowLE :=
  ⟨fun a b => le_total a.timestamp b.timestamp⟩

instance : IsTrans SensorReadingRow senRowLE :=
  ⟨fun _ _ _ hab hbc => le_trans hab hbc⟩

/-- Projection of a stored location row back onto the wire shape, as in the
`rows.map` of `getLocationPoints`. -/
def locRowToApi (r : LocationPointRow) : ApiLocationPoint :=
  { timestamp := r.timestamp
    latitude := r.latitude
    longitude := r.longitude
    altitude := r.altitude
    speed := r.speed
    bearing := r.bearing
    horizontal_accuracy := r.horizontalAccuracy
    vertical_accuracy := r.verticalAccuracy }

/-- recording-store.ts `getLocationPoints`: rows of the recording ordered by
`timestamp` ascending (a stable sort; SQLite leaves ties in insertion order),
mapped onto the wire shape. -/
def getLocationPoints (s : Store) (recordingId : Nat) : List ApiLocationPoint :=
  ((s.locationPoints.filter fun p =>
      decide (p.recordingId = recordingId)).insertionSort locRowLE).map locRowToApi

/-- Projection of a stored sensor row back onto the wire shape, as in the
`rows.map` of `getSensorReadings`. -/
def senRowToApi (r : SensorReadingRow) : ApiSensorReading :=
  { timestamp := r.timestamp
    accel_x := r.accelX
    accel_y := r.accelY
    accel_z := r.accelZ
    gyro_x := r.gyroX
    gyro_y := r.gyroY
    gyro_z := r.gyroZ
    pressure := r.pressure
    magnetic_heading := r.magneticHeading }

/-- recording-store.ts `getSensorReadings`: rows of the recording ordered by
`timestamp` ascending, mapped onto the wire shape. -/
def getSensorReadings (s : Store) (recordingId : Nat) : List ApiSensorReading :=
  ((s.sensorReadings.filter fun p =>
      decide (p.recordingId = recordingId)).insertionSort senRowLE).map senRowToApi

/-- recording-store.ts `deleteRecording`: deletes the points, the readings and
the recording row of the given id. -/
def deleteRecording (s : Store) (recordingId : Nat) : Store :=
  { s with
    recordings := s.recordings.filter fun r => decide (¬ r.id = recordingId)
    locationPoints := s.locationPoints.filter fun p => decide (¬ p.recordingId = recordingId)
    sensorReadings := s.sensorReadings.filter fun p => decide (¬ p.recordingId = recordingId) }

/-- recording-store.ts `touchRecording`: `UPDATE recordings SET lastActivityAt
= now WHERE id = recordingId`. -/
def touchRecording (s : Store) (recordingId : Nat) (now : String) : Store :=
  { s with
    recordings := s.recordings.map fun r =>
      if r.id = recordingId then { r with lastActivityAt := now } else r }

/-- Number of `in_progress` rows in the store. -/
def countInProgress (s : Store) : Nat :=
  (s.recordings.filter fun r => decide (r.status = RecStatus.in_progress)).length

/-! ### Sync engine (syncOneRecording / syncPendingRecordings) -/

/-- One network call made by the sync engine, in the order issued. -/
inductive ApiCall where
  | start (deviceModel osVersion : Option String)
  | uploadLoc (serverId : Nat) (batch : List ApiLocationPoint)
  | uploadSensor (serverId : Nat) (batch : List ApiSensorReading)
  | endRec (serverId : Nat) (lineId : Option Int) (lineName : Option String)
deriving DecidableEq, Repr

/-- Oracle for the remote API: which calls succeed and, for `startRecording`,
the id of the remote session the server answers with.  `none` / `false` model
a thrown `Error`. -/
structure ApiModel where
  startResult : Option String → Option String → Option Nat
  uploadLocOk : Nat → List ApiLocationPoint → Bool
  uploadSensorOk : Nat → List ApiSensorReading → Bool
  endOk : Nat → Option Int → Option String → Bool

/-- sync.ts `const BATCH_SIZE = 100`. -/
def BATCH_SIZE : Nat := 100

/-- Fuel-indexed helper for the slicing loop; the fuel bounds the number of
iterations and is instantiated with the list length, which keeps the
function structurally recursive (and so kernel-computable). -/
def chunkAux {α : Type} : Nat → List α → List (List α)
  | _, [] => []
  | 0, _ :: _ => []
  | fuel + 1, x :: xs =>
    ((x :: xs).take BATCH_SIZE) :: chunkAux fuel ((x :: xs).drop BATCH_SIZE)

/-- The batches produced by the slicing loop
`for (let i = 0; i < l.length; i += BATCH_SIZE) l.slice(i, i + BATCH_SIZE)`. -/
def chunkBatches {α : Type} (l : List α) : List (List α) :=
  chunkAux l.length l

/-- The location-batch upload loop: issues one call per batch, aborting at the
first failure (the thrown error propagates to the enclosing `catch`). -/
def runLocBatches (api : ApiModel) (serverId : Nat) :
    List (List ApiLocationPoint) → Bool × List ApiCall
  | [] => (true, [])
  | b :: rest =>
    if api.uploadLocOk serverId b then
      let r := runLocBatches api serverId rest
      (r.1, ApiCall.uploadLoc serverId b :: r.2)
    else (false, [ApiCall.uploadLoc serverId b])

/-- The sensor-batch upload loop, as `runLocBatches`. -/
def runSensorBatches (api : ApiModel) (serverId : Nat) :
    List (List ApiSensorReading) → Bool × List ApiCall
  | [] => (true, [])
  | b :: rest =>
    if api.uploadSensorOk serverId b then
      let r := runSensorBatches api serverId rest
      (r.1, ApiCall.uploadSensor serverId b :: r.2)
    else (false, [ApiCall.uploadSensor serverId b])

/-- Result of one run of `syncOneRecording`: the store afterwards, the boolean
the function returns, the network calls issued in order, and the
`console.error` log lines emitted. -/
structure SyncOutcome where
  store : Store
  ok : Bool
  trace : List ApiCall
  logs : List String
deriving Repr

/-- Log line of the `catch` block of `syncOneRecording`. -/
def syncFailLog (recordingId : Nat) : String :=
  "Sync failed for recording " ++ toString recordingId

/-- sync.ts `syncOneRecording`: refuses unless the row exists and is
`pending_sync`; then start on the server, upload location batches, upload
sensor batches, end with the line reference, and only then delete locally.
Any failure is caught: the store is left untouched, the error logged, and
`false` returned. -/
def syncOneRecording (api : ApiModel) (s : Store) (recordingId : Nat) :
    SyncOutcome :=
  match getRecording s recordingId with
  | none => ⟨s, false, [], []⟩
  | some rec =>
    if rec.status = RecStatus.pending_sync then
      match api.startResult rec.deviceModel rec.osVersion with
      | none =>
        ⟨s, false, [ApiCall.start rec.deviceModel rec.osVersion],
          [syncFailLog recordingId]⟩
      | some serverId =>
        let locRun := runLocBatches api serverId
          (chunkBatches (getLocationPoints s recordingId))
        if locRun.1 then
          let senRun := runSensorBatches api serverId
            (chunkBatches (getSensorReadings s recordingId))
          if senRun.1 then
            if api.endOk serverId rec.lineId rec.lineName then
              ⟨deleteRecording s recordingId, true,
                ApiCall.start rec.deviceModel rec.osVersion ::
                  (locRun.2 ++ senRun.2 ++
                    [ApiCall.endRec serverId rec.lineId rec.lineName]), []⟩
            else
              ⟨s, false,
                ApiCall.start rec.deviceModel rec.osVersion ::
                  (locRun.2 ++ senRun.2 ++
                    [ApiCall.endRec serverId rec.lineId rec.lineName]),
                [syncFailLog recordingId]⟩
          else
            ⟨s, false,
              ApiCall.start rec.deviceModel rec.osVersion ::
                (locRun.2 ++ senRun.2), [syncFailLog recordingId]⟩
        else
          ⟨s, false,
            ApiCall.start rec.deviceModel rec.osVersion :: locRun.2,
            [syncFailLog recordingId]⟩
    else ⟨s, false, [], []⟩

/-- The `for (const rec of pending)` loop of `syncPendingRecordings`:
processes the listed ids in order over the evolving store and counts the
successful ones. -/
def syncLoop (api : ApiModel) (s : Store) : List Nat → Store × Nat
  | [] => (s, 0)
  | id :: rest =>
    let o := syncOneRecording api s id
    let r := syncLoop api o.store rest
    (r.1, (if o.ok then 1 else 0) + r.2)

/-- sync.ts `syncPendingRecordings`: returns 0 untouched when offline,
otherwise fetches the `pending_sync` rows once and syncs each in turn. -/
def syncPendingRecordings (api : ApiModel) (isConnected : Bool) (s : Store) :
    Store × Nat :=
  if isConnected then
    syncLoop api s ((getPendingSyncRecordings s).map fun r => r.id)
  else (s, 0)

/-! ### Background location task (background-location.ts) -/

/-- The `coords` object of an expo `LocationObject`. -/
structure LocCoords where
  latitude : Rat
  longitude : Rat
  altitude : Option Rat
  speed : Option Rat
  heading : Option Rat
  accuracy : Option Rat
  altitudeAccuracy : Option Rat
deriving DecidableEq, Repr

/-- An expo `LocationObject` as consumed by the task: a millisecond timestamp
and coordinates. -/
structure LocationObject where
  timestamp : Nat
  coords : LocCoords
deriving DecidableEq, Repr

/-- The `{ data, error }` argument the task manager hands the task body.
`data = none` collapses the `data == null` and `data.locations == null`
checks of `!data?.locations?.length`. -/
structure TaskInput where
  data : Option (List LocationObject)
  error : Option String
deriving DecidableEq, Repr

/-- Result of one invocation of the background task body: the store
afterwards, the payloads sent to `notifyListeners`, and the `console.error`
log lines. -/
structure TaskOutcome where
  store : Store
  notified : List Nat
  logs : List String
deriving Repr

/-- Mapping of one `LocationObject` onto the wire shape, as in the task's
`data.locations.map`; `toIso` stands for `new Date(ms).toISOString()`,
a platform date function passed in explicitly. -/
def locObjToPoint (toIso : Nat → String) (loc : LocationObject) :
    ApiLocationPoint :=
  { timestamp := toIso loc.timestamp
    latitude := loc.coords.latitude
    longitude := loc.coords.longitude
    altitude := loc.coords.altitude
    speed := loc.coords.speed
    bearing := loc.coords.heading
    horizontal_accuracy := loc.coords.accuracy
    vertical_accuracy := loc.coords.altitudeAccuracy }

/-- The body of `TaskManager.defineTask` in background-location.ts: log and
return on a task error; return on an empty delivery; re-resolve the current
`in_progress` recording from the store and return if there is none; otherwise
append the points, touch the recording and notify listeners. -/
def backgroundLocationTask (toIso : Nat → String) (now : String) (s : Store)
    (input : TaskInput) : TaskOutcome :=
  match input.error with
  | some e => ⟨s, [], ["Background location task error: " ++ e]⟩
  | none =>
    match input.data with
    | none => ⟨s, [], []⟩
    | some locs =>
      if locs.length = 0 then ⟨s, [], []⟩
      else
        match getInProgressRecording s with
        | none => ⟨s, [], []⟩
        | some rec =>
          let points := locs.map (locObjToPoint toIso)
          ⟨touchRecording (addLocationPoints s rec.id points) rec.id now,
            [points.length], []⟩

/-! ### Fixtures for concrete counterexamples and witnesses -/

/-- A session created at time "T0", still recording. -/
def exRec1 : Recording :=
  { id := 1, serverId := none, status := RecStatus.in_progress, lineId := none,
    lineName := none, direction := none, deviceModel := none, osVersion := none,
    notes := none, startedAt := "T0", endedAt := none, lastActivityAt := "T0",
    syncedAt := none, createdAt := "T0" }

/-- A store holding just the recording session `exRec1`. -/
def exStore1 : Store :=
  { recordings := [exRec1], locationPoints := [], sensorReadings := [],
    nextRecordingId := 2, nextLocationPointId := 1, nextSensorReadingId := 1 }

/-- A finished session, already `pending_sync`. -/
def exRecPending : Recording :=
  { id := 3, serverId := none, status := RecStatus.pending_sync,
    lineId := some 5, lineName := none, direction := none, deviceModel := none,
    osVersion := none, notes := none, startedAt := "T0", endedAt := some "T1",
    lastActivityAt := "T1", syncedAt := none, createdAt := "T0" }

/-- A store holding just the `pending_sync` session `exRecPending`. -/
def exStorePending : Store :=
  { recordings := [exRecPending], locationPoints := [], sensorReadings := [],
    nextRecordingId := 4, nextLocationPointId := 1, nextSensorReadingId := 1 }

/-- Creation options with every field absent. -/
def exOpts : CreateOpts :=
  { direction := none, deviceModel := none, osVersion := none }

/-- A single wire-shaped location point stamped "T1". -/
def exPoint1 : ApiLocationPoint :=
  { timestamp := "T1", latitude := 1, longitude := 2, altitude := none,
    speed := none, bearing := none, horizontal_accuracy := none,
    vertical_accuracy := none }

/-- A single wire-shaped sensor reading stamped "T1". -/
def exReading1 : ApiSensorReading :=
  { timestamp := "T1", accel_x := some 1, accel_y := none, accel_z := none,
    gyro_x := none, gyro_y := none, gyro_z := none, pressure := none,
    magnetic_heading := none }

/-! ### Shared helper lemmas about the store operations -/

/-- Appending location points never changes the `recordings` table. -/
theorem addLocationPoints_recordings (s : Store) (id : Nat)
    (pts : List ApiLocationPoint) :
    (addLocationPoints s id pts).recordings = s.recordings := by
  induction pts generalizing s with
  | nil => rfl
  | cons p rest ih => simpa [addLocationPoints, insertLocationPoint] using ih _

/-- Appending sensor readings never changes the `recordings` table. -/
theorem addSensorReadings_recordings (s : Store) (id : Nat)
    (rds : List ApiSensorReading) :
    (addSensorReadings s id rds).recordings = s.recordings := by
  induction rds generalizing s with
  | nil => rfl
  | cons r rest ih => simpa [addSensorReadings, insertSensorReading] using ih _

/-- Number of stored location rows belonging to one recording. -/
def countPointsFor (s : Store) (recordingId : Nat) : Nat :=
  (s.locationPoints.filter fun p => decide (p.recordingId = recordingId)).length

/-- Each appended point adds exactly one row for that recording. -/
theorem countPointsFor_addLocationPoints (s : Store) (id : Nat)
    (pts : List ApiLocationPoint) :
    countPointsFor (addLocationPoints s id pts) id =
      countPointsFor s id + pts.length := by
  induction pts generalizing s with
  | nil => rfl
  | cons p rest ih =>
    have h := ih (insertLocationPoint s id p)
    simp only [addLocationPoints, h]
    simp [countPointsFor, insertLocationPoint, List.filter_append]
    omega

/-- The queried point list of a recording is always sorted by timestamp
(non-decreasing). -/
theorem getLocationPoints_sorted (s : Store) (id : Nat) :
    List.Sorted (fun a b : ApiLocationPoint => a.timestamp ≤ b.timestamp)
      (getLocationPoints s id) := by
  unfold getLocationPoints
  exact List.Pairwise.map locRowToApi (fun a b h => h)
    (List.sorted_insertionSort locRowLE _)

/-- The queried reading list of a recording is always sorted by timestamp
(non-decreasing). -/
theorem getSensorReadings_sorted (s : Store) (id : Nat) :
    List.Sorted (fun a b : ApiSensorReading => a.timestamp ≤ b.timestamp)
      (getSensorReadings s id) := by
  unfold getSensorReadings
  exact List.Pairwise.map senRowToApi (fun a b h => h)
    (List.sorted_insertionSort senRowLE _)

/-! ### C1 -/

/-- C1 counterexample: `exStore1` already holds a `recording` session, yet
`createRecording` does not fail — it inserts a second row, leaving two
`in_progress` sessions; the claimed store-level invariant is not enforced. -/
theorem createRecording_no_guard_cex :
    countInProgress exStore1 = 1 ∧
    ((createRecording exStore1 exOpts "T2").2).recordings.length =
      exStore1.recordings.length + 1 ∧
    countInProgress ((createRecording exStore1 exOpts "T2").2) = 2 :=
  ⟨rfl, rfl, rfl⟩

/-- C1 (amended): `createRecording` never fails: it unconditionally inserts a
fresh `in_progress` row and returns it, growing the number of `in_progress`
sessions by one even when one already exists; the store does not enforce the
at-most-one-recording invariant. -/
theorem createRecording_always_inserts (s : Store) (opts : CreateOpts)
    (now : String) :
    ((createRecording s opts now).2).recordings =
      s.recordings ++ [(createRecording s opts now).1] ∧
    (createRecording s opts now).1.status = RecStatus.in_progress ∧
    countInProgress ((createRecording s opts now).2) = countInProgress s + 1 := by
  refine ⟨rfl, rfl, ?_⟩
  simp [createRecording, countInProgress, List.filter_append]

/-! ### C10 -/

/-- C10: `getInProgressRecording` queries with `LIMIT 1`: the row list has at
most one element, and any returned recording is an `in_progress` row of the
store. -/
theorem getInProgressRecording_at_most_one (s : Store) (r : Recording) :
    (getInProgressRows s).length ≤ 1 ∧
    (getInProgressRecording s = some r →
      r.status = RecStatus.in_progress ∧ r ∈ s.recordings) := by
  constructor
  · unfold getInProgressRows
    rw [List.length_take]
    exact Nat.min_le_left _ _
  · intro h
    have hr : r ∈ getInProgressRows s := by
      unfold getInProgressRecording at h
      cases hrows : getInProgressRows s with
      | nil => rw [hrows] at h; simp at h
      | cons a t =>
        rw [hrows] at h
        simp only [List.head?_cons, Option.some.injEq] at h
        subst h
        exact List.mem_cons_self a t
    unfold getInProgressRows at hr
    have hr' := List.mem_of_mem_take hr
    have := List.mem_filter.mp hr'
    exact ⟨of_decide_eq_true this.2, this.1⟩

/-- C10 witness: the one-session store returns exactly its recording row. -/
theorem getInProgressRecording_at_most_one_witness :
    (getInProgressRows exStore1).length ≤ 1 ∧
    (exRec1.status = RecStatus.in_progress ∧ exRec1 ∈ exStore1.recordings) :=
  ⟨(getInProgressRecording_at_most_one exStore1 exRec1).1,
   (getInProgressRecording_at_most_one exStore1 exRec1).2 rfl⟩

/-! ### C2 -/

/-- C2 counterexample: `exRecPending` is already terminal (`pending_sync`),
yet `finalizeRecording` is not a no-op on it — the row's lineId, lineName,
endedAt and lastActivityAt are all rewritten. -/
theorem finalizeRecording_not_idempotent_cex :
    exRecPending.status = RecStatus.pending_sync ∧
    (finalizeRecording exStorePending 3 none none FinalizeStatus.discarded
        "T9").recordings ≠ exStorePending.recordings := by
  refine ⟨rfl, ?_⟩
  decide

/-- C2 (amended): `finalizeRecording` carries no guard on the current status:
for a session already in a terminal status (anything other than
`in_progress`), calling it again overwrites status, lineId, lineName,
endedAt and lastActivityAt of that row; it is a no-op only when no row
carries the requested id. -/
theorem finalizeRecording_overwrites_terminal (s : Store) (rec : Recording)
    (lid : Option Int) (lname : Option String) (fs : FinalizeStatus)
    (now : String) (hr : rec ∈ s.recordings)
    (_hterm : rec.status ≠ RecStatus.in_progress) :
    { rec with
      status := fs.toRecStatus
      lineId := lid
      lineName := lname
      endedAt := some now
      lastActivityAt := now } ∈
      (finalizeRecording s rec.id lid lname fs now).recordings := by
  unfold finalizeRecording
  have h := List.mem_map_of_mem
    (f := fun r : Recording =>
      if r.id = rec.id then
        { r with
          status := fs.toRecStatus
          lineId := lid
          lineName := lname
          endedAt := some now
          lastActivityAt := now }
      else r) hr
  simpa using h

/-- C2 witness: the overwrite really happens on the concrete terminal store. -/
theorem finalizeRecording_overwrites_terminal_witness :
    exRecPending ∈ exStorePending.recordings ∧
    exRecPending.status ≠ RecStatus.in_progress ∧
    { exRecPending with
      status := FinalizeStatus.discarded.toRecStatus
      lineId := none
      lineName := none
      endedAt := some "T9"
      lastActivityAt := "T9" } ∈
      (finalizeRecording exStorePending exRecPending.id none none
        FinalizeStatus.discarded "T9").recordings :=
  ⟨List.mem_cons_self _ _, by decide,
   finalizeRecording_overwrites_terminal exStorePending exRecPending none none
     FinalizeStatus.discarded "T9" (List.mem_cons_self _ _) (by decide)⟩

/-! ### C3 -/

/-- C3 counterexample: appending a non-empty batch of points (and of readings)
leaves the session row — including `lastActivityAt` — completely unchanged;
the append functions do not refresh liveness. -/
theorem append_does_not_update_lastActivityAt_cex :
    (addLocationPoints exStore1 1 [exPoint1]).recordings = [exRec1] ∧
    (addSensorReadings exStore1 1 [exReading1]).recordings = [exRec1] ∧
    exRec1.lastActivityAt = "T0" ∧ exPoint1.timestamp = "T1" ∧
    ("T0" : String) ≠ "T1" := by
  refine ⟨rfl, rfl, rfl, rfl, ?_⟩
  decide

/-- C3 (amended): `addLocationPoints` and `addSensorReadings` only insert
child rows and leave every session row (in particular `lastActivityAt`)
untouched; `lastActivityAt` is refreshed only by the separate
`touchRecording` call (issued by the background task after each stored batch
and by the one-second heartbeat of the record screen). -/
theorem append_leaves_sessions_untouched (s : Store)
    (pts : List ApiLocationPoint) (rds : List ApiSensorReading) (now : String)
    (rec : Recording) (hr : rec ∈ s.recordings) :
    (addLocationPoints s rec.id pts).recordings = s.recordings ∧
    (addSensorReadings s rec.id rds).recordings = s.recordings ∧
    { rec with lastActivityAt := now } ∈
      (touchRecording s rec.id now).recordings := by
  refine ⟨addLocationPoints_recordings s rec.id pts,
    addSensorReadings_recordings s rec.id rds, ?_⟩
  unfold touchRecording
  have h := List.mem_map_of_mem
    (f := fun r : Recording =>
      if r.id = rec.id then { r with lastActivityAt := now } else r) hr
  simpa using h

/-- C3 witness: concrete run on the one-session store. -/
theorem append_leaves_sessions_untouched_witness :
    exRec1 ∈ exStore1.recordings ∧
    ((addLocationPoints exStore1 exRec1.id [exPoint1]).recordings =
        exStore1.recordings ∧
      (addSensorReadings exStore1 exRec1.id [exReading1]).recordings =
        exStore1.recordings ∧
      { exRec1 with lastActivityAt := "T2" } ∈
        (touchRecording exStore1 exRec1.id "T2").recordings) :=
  ⟨List.mem_cons_self _ _,
   append_leaves_sessions_untouched exStore1 [exPoint1] [exReading1] "T2"
     exRec1 (List.mem_cons_self _ _)⟩

/-! ### C4 -/

/-- C4 counterexample: `cancelRecording` at time "T9" sets `endedAt` but
leaves `lastActivityAt` at its old value "T0": the cancelled transition does
not set both fields to the current time. -/
theorem cancelRecording_skips_lastActivityAt_cex :
    (cancelRecording exStore1 1 "T9").recordings =
      [{ exRec1 with status := RecStatus.cancelled, endedAt := some "T9" }] ∧
    ({ exRec1 with
        status := RecStatus.cancelled
        endedAt := some "T9" }).lastActivityAt = "T0" ∧
    ("T0" : String) ≠ "T9" := by
  refine ⟨rfl, rfl, ?_⟩
  decide

/-- C4 (amended): `finalizeRecording` (→ `pending_sync`/`discarded`) sets both
`endedAt` and `lastActivityAt` to the current time, but `cancelRecording`
sets only `status` and `endedAt`, leaving `lastActivityAt` unchanged. -/
theorem finalize_sets_both_cancel_sets_endedAt_only (s : Store)
    (rec : Recording) (lid : Option Int) (lname : Option String)
    (fs : FinalizeStatus) (now : String) (hr : rec ∈ s.recordings) :
    { rec with
      status := fs.toRecStatus
      lineId := lid
      lineName := lname
      endedAt := some now
      lastActivityAt := now } ∈
      (finalizeRecording s rec.id lid lname fs now).recordings ∧
    { rec with status := RecStatus.cancelled, endedAt := some now } ∈
      (cancelRecording s rec.id now).recordings ∧
    ({ rec with
        status := RecStatus.cancelled
        endedAt := some now }).lastActivityAt = rec.lastActivityAt := by
  refine ⟨?_, ?_, rfl⟩
  · unfold finalizeRecording
    have h := List.mem_map_of_mem
      (f := fun r : Recording =>
        if r.id = rec.id then
          { r with
            status := fs.toRecStatus
            lineId := lid
            lineName := lname
            endedAt := some now
            lastActivityAt := now }
        else r) hr
    simpa using h
  · unfold cancelRecording
    have h := List.mem_map_of_mem
      (f := fun r : Recording =>
        if r.id = rec.id then
          { r with status := RecStatus.cancelled, endedAt := some now }
        else r) hr
    simpa using h

/-- C4 witness: concrete run on the one-session store. -/
theorem finalize_sets_both_cancel_sets_endedAt_only_witness :
    exRec1 ∈ exStore1.recordings ∧
    ({ exRec1 with
        status := FinalizeStatus.pending_sync.toRecStatus
        lineId := some 5
        lineName := none
        endedAt := some "T9"
        lastActivityAt := "T9" } ∈
      (finalizeRecording exStore1 exRec1.id (some 5) none
        FinalizeStatus.pending_sync "T9").recordings ∧
     { exRec1 with status := RecStatus.cancelled, endedAt := some "T9" } ∈
       (cancelRecording exStore1 exRec1.id "T9").recordings ∧
     ({ exRec1 with
         status := RecStatus.cancelled
         endedAt := some "T9" }).lastActivityAt = exRec1.lastActivityAt) :=
  ⟨List.mem_cons_self _ _,
   finalize_sets_both_cancel_sets_endedAt_only exStore1 exRec1 (some 5) none
     FinalizeStatus.pending_sync "T9" (List.mem_cons_self _ _)⟩

/-! ### C8 -/

/-- C8: re-appending the same batch (a simulated retry) duplicates the point
rows of the session — after two identical appends the session owns the old
rows plus two copies of the batch — while every session row is unchanged, and
the queried point list is still ordered non-decreasing by timestamp. -/
theorem addLocationPoints_retry_duplicates (s : Store) (id : Nat)
    (pts : List ApiLocationPoint) :
    (addLocationPoints (addLocationPoints s id pts) id pts).recordings =
      s.recordings ∧
    countPointsFor (addLocationPoints (addLocationPoints s id pts) id pts) id =
      countPointsFor s id + 2 * pts.length ∧
    List.Sorted (fun a b : ApiLocationPoint => a.timestamp ≤ b.timestamp)
      (getLocationPoints (addLocationPoints (addLocationPoints s id pts) id pts)
        id) := by
  refine ⟨?_, ?_, getLocationPoints_sorted _ id⟩
  · rw [addLocationPoints_recordings, addLocationPoints_recordings]
  · rw [countPointsFor_addLocationPoints, countPointsFor_addLocationPoints]
    omega

/-! ### Shared lemmas about the sync engine -/

/-- With sufficient fuel the chunks concatenate back to the list. -/
theorem chunkAux_flatten {α : Type} :
    ∀ (n : Nat) (l : List α), l.length ≤ n → (chunkAux n l).flatten = l
  | _, [], _ => by simp [chunkAux]
  | 0, x :: xs, h => by simp at h
  | n + 1, x :: xs, h => by
    rw [chunkAux, List.flatten_cons,
      chunkAux_flatten n ((x :: xs).drop BATCH_SIZE)
        (by simp only [BATCH_SIZE, List.length_drop, List.length_cons]
            simp only [List.length_cons] at h
            omega),
      List.take_append_drop]

/-- The slicing loop loses and reorders nothing: the concatenation of the
batches is the original list. -/
theorem chunkBatches_join {α : Type} (l : List α) :
    (chunkBatches l).flatten = l :=
  chunkAux_flatten l.length l le_rfl

/-- Every chunk the fuelled helper emits is a `take BATCH_SIZE`. -/
theorem chunkAux_size {α : Type} :
    ∀ (n : Nat) (l : List α), ∀ b ∈ chunkAux n l, b.length ≤ BATCH_SIZE
  | _, [], _ => by simp [chunkAux]
  | 0, _ :: _, _ => by simp [chunkAux]
  | n + 1, x :: xs, b => by
    rw [chunkAux]
    intro hb
    rcases List.mem_cons.mp hb with hb | hb
    · subst hb
      simp only [List.length_take]
      exact Nat.min_le_left _ _
    · exact chunkAux_size n ((x :: xs).drop BATCH_SIZE) b hb

/-- Every batch produced by the slicing loop has at most `BATCH_SIZE`
elements. -/
theorem chunkBatches_size {α : Type} (l : List α) :
    ∀ b ∈ chunkBatches l, b.length ≤ BATCH_SIZE :=
  chunkAux_size l.length l

/-- When every location upload succeeds, the upload loop issues exactly one
call per batch, in batch order. -/
theorem runLocBatches_all_ok (api : ApiModel) (sid : Nat)
    (bs : List (List ApiLocationPoint))
    (h : ∀ b, api.uploadLocOk sid b = true) :
    runLocBatches api sid bs = (true, bs.map (ApiCall.uploadLoc sid)) := by
  induction bs with
  | nil => rfl
  | cons b rest ih => simp [runLocBatches, h b, ih]

/-- When every sensor upload succeeds, the upload loop issues exactly one
call per batch, in batch order. -/
theorem runSensorBatches_all_ok (api : ApiModel) (sid : Nat)
    (bs : List (List ApiSensorReading))
    (h : ∀ b, api.uploadSensorOk sid b = true) :
    runSensorBatches api sid bs = (true, bs.map (ApiCall.uploadSensor sid)) := by
  induction bs with
  | nil => rfl
  | cons b rest ih => simp [runSensorBatches, h b, ih]

/-- A sync pass either succeeds and its only store mutation is the final
local deletion, or it fails and the store is untouched. -/
theorem syncOneRecording_dichotomy (api : ApiModel) (s : Store) (id : Nat) :
    ((syncOneRecording api s id).ok = true ∧
      (syncOneRecording api s id).store = deleteRecording s id) ∨
    ((syncOneRecording api s id).ok = false ∧
      (syncOneRecording api s id).store = s) := by
  cases hrec : getRecording s id with
  | none => right; simp [syncOneRecording, hrec]
  | some rec =>
    by_cases hst : rec.status = RecStatus.pending_sync
    · cases hstart : api.startResult rec.deviceModel rec.osVersion with
      | none => right; simp [syncOneRecording, hrec, hst, hstart]
      | some sid =>
        cases hloc :
            (runLocBatches api sid (chunkBatches (getLocationPoints s id))).1 with
        | false => right; simp [syncOneRecording, hrec, hst, hstart, hloc]
        | true =>
          cases hsen :
              (runSensorBatches api sid (chunkBatches (getSensorReadings s id))).1 with
          | false => right; simp [syncOneRecording, hrec, hst, hstart, hloc, hsen]
          | true =>
            cases hend : api.endOk sid rec.lineId rec.lineName with
            | false =>
              right; simp [syncOneRecording, hrec, hst, hstart, hloc, hsen, hend]
            | true =>
              left; simp [syncOneRecording, hrec, hst, hstart, hloc, hsen, hend]
    · right; simp [syncOneRecording, hrec, hst]

/-! ### C5 -/

/-- C5: for a `pending_sync` session, when every remote call succeeds the sync
pass returns true, mutates the store only by the final local deletion, and
its network trace is exactly: one start call, then the location batches in
order, then the sensor batches, then the end call with the session's line
reference.  The location batches concatenate back to the stored (timestamp-
sorted) point list and each batch holds at most `BATCH_SIZE` records; the
local deletion appears only in the branch in which the end call succeeded. -/
theorem syncOneRecording_success (api : ApiModel) (s : Store) (id : Nat)
    (rec : Recording) (sid : Nat)
    (h1 : getRecording s id = some rec)
    (h2 : rec.status = RecStatus.pending_sync)
    (h3 : api.startResult rec.deviceModel rec.osVersion = some sid)
    (h4 : ∀ b, api.uploadLocOk sid b = true)
    (h5 : ∀ b, api.uploadSensorOk sid b = true)
    (h6 : api.endOk sid rec.lineId rec.lineName = true) :
    (syncOneRecording api s id).ok = true ∧
    (syncOneRecording api s id).store = deleteRecording s id ∧
    (syncOneRecording api s id).trace =
      ApiCall.start rec.deviceModel rec.osVersion ::
        ((chunkBatches (getLocationPoints s id)).map (ApiCall.uploadLoc sid) ++
          ((chunkBatches (getSensorReadings s id)).map (ApiCall.uploadSensor sid) ++
            [ApiCall.endRec sid rec.lineId rec.lineName])) ∧
    (chunkBatches (getLocationPoints s id)).flatten = getLocationPoints s id ∧
    (∀ b ∈ chunkBatches (getLocationPoints s id), b.length ≤ BATCH_SIZE) ∧
    List.Sorted (fun a b : ApiLocationPoint => a.timestamp ≤ b.timestamp)
      (getLocationPoints s id) ∧
    (chunkBatches (getSensorReadings s id)).flatten = getSensorReadings s id ∧
    (∀ b ∈ chunkBatches (getSensorReadings s id), b.length ≤ BATCH_SIZE) := by
  have hloc := runLocBatches_all_ok api sid
    (chunkBatches (getLocationPoints s id)) h4
  have hsen := runSensorBatches_all_ok api sid
    (chunkBatches (getSensorReadings s id)) h5
  refine ⟨?_, ?_, ?_, chunkBatches_join _, chunkBatches_size _,
    getLocationPoints_sorted s id, chunkBatches_join _, chunkBatches_size _⟩
  all_goals simp [syncOneRecording, h1, h2, h3, h6, hloc, hsen]

/-- All-success remote oracle: the server answers session id 7 to start and
accepts every upload and the end call. -/
def apiAllOk : ApiModel :=
  { startResult := fun _ _ => some 7
    uploadLocOk := fun _ _ => true
    uploadSensorOk := fun _ _ => true
    endOk := fun _ _ _ => true }

/-- A stored location row of session 3 stamped "T2". -/
def exRow1 : LocationPointRow :=
  { id := 1, recordingId := 3, timestamp := "T2", latitude := 1, longitude := 2,
    altitude := none, speed := none, bearing := none, horizontalAccuracy := none,
    verticalAccuracy := none }

/-- A stored sensor row of session 3 stamped "T2". -/
def exSenRow1 : SensorReadingRow :=
  { id := 1, recordingId := 3, timestamp := "T2", accelX := some 1,
    accelY := none, accelZ := none, gyroX := none, gyroY := none, gyroZ := none,
    pressure := none, magneticHeading := none }

/-- A store with one `pending_sync` session owning one point and one
reading. -/
def exStoreSync : Store :=
  { recordings := [exRecPending], locationPoints := [exRow1],
    sensorReadings := [exSenRow1], nextRecordingId := 4,
    nextLocationPointId := 2, nextSensorReadingId := 2 }

/-- C5 witness: the all-success oracle syncs the concrete pending store,
returns true and deletes the session locally. -/
theorem syncOneRecording_success_witness :
    getRecording exStoreSync 3 = some exRecPending ∧
    exRecPending.status = RecStatus.pending_sync ∧
    (syncOneRecording apiAllOk exStoreSync 3).ok = true ∧
    (syncOneRecording apiAllOk exStoreSync 3).store =
      deleteRecording exStoreSync 3 ∧
    (syncOneRecording apiAllOk exStoreSync 3).trace =
      ApiCall.start exRecPending.deviceModel exRecPending.osVersion ::
        ((chunkBatches (getLocationPoints exStoreSync 3)).map
            (ApiCall.uploadLoc 7) ++
          ((chunkBatches (getSensorReadings exStoreSync 3)).map
              (ApiCall.uploadSensor 7) ++
            [ApiCall.endRec 7 exRecPending.lineId exRecPending.lineName])) := by
  have h := syncOneRecording_success apiAllOk exStoreSync 3 exRecPending 7
    rfl rfl rfl (fun _ => rfl) (fun _ => rfl) rfl
  exact ⟨rfl, rfl, h.1, h.2.1, h.2.2.1⟩

/-! ### C6 -/

/-- On any failing pass over an existing `pending_sync` session, the catch
block logged the failure. -/
theorem syncOneRecording_fail_logs (api : ApiModel) (s : Store) (id : Nat)
    (rec : Recording)
    (h1 : getRecording s id = some rec)
    (h2 : rec.status = RecStatus.pending_sync)
    (hfail : (syncOneRecording api s id).ok = false) :
    (syncOneRecording api s id).logs = [syncFailLog id] := by
  cases hstart : api.startResult rec.deviceModel rec.osVersion with
  | none => simp [syncOneRecording, h1, h2, hstart]
  | some sid =>
    cases hloc :
        (runLocBatches api sid (chunkBatches (getLocationPoints s id))).1 with
    | false => simp [syncOneRecording, h1, h2, hstart, hloc]
    | true =>
      cases hsen :
          (runSensorBatches api sid (chunkBatches (getSensorReadings s id))).1 with
      | false => simp [syncOneRecording, h1, h2, hstart, hloc, hsen]
      | true =>
        cases hend : api.endOk sid rec.lineId rec.lineName with
        | false => simp [syncOneRecording, h1, h2, hstart, hloc, hsen, hend]
        | true =>
          exfalso
          simp [syncOneRecording, h1, h2, hstart, hloc, hsen, hend] at hfail

/-- C6: when a sync pass for an existing `pending_sync` session fails at any
step, the local store is left exactly as it was (the session, its points and
its readings are intact), the failure is logged, and the engine's loop over
the remaining pending sessions proceeds exactly as if this session had not
been attempted. -/
theorem syncOneRecording_failure_aborts (api : ApiModel) (s : Store) (id : Nat)
    (rec : Recording) (rest : List Nat)
    (h1 : getRecording s id = some rec)
    (h2 : rec.status = RecStatus.pending_sync)
    (hfail : (syncOneRecording api s id).ok = false) :
    (syncOneRecording api s id).store = s ∧
    (syncOneRecording api s id).logs = [syncFailLog id] ∧
    syncLoop api s (id :: rest) = syncLoop api s rest := by
  have hstore : (syncOneRecording api s id).store = s := by
    rcases syncOneRecording_dichotomy api s id with ⟨hok, _⟩ | ⟨_, hs⟩
    · rw [hok] at hfail; cases hfail
    · exact hs
  refine ⟨hstore, syncOneRecording_fail_logs api s id rec h1 h2 hfail, ?_⟩
  simp [syncLoop, hfail, hstore]

/-- Oracle whose end call always fails (e.g. the connection drops before the
final request). -/
def apiEndFail : ApiModel :=
  { startResult := fun _ _ => some 7
    uploadLocOk := fun _ _ => true
    uploadSensorOk := fun _ _ => true
    endOk := fun _ _ _ => false }

/-- C6 witness: with the end call failing, the concrete pending store is left
untouched, the failure is logged, and the loop continues. -/
theorem syncOneRecording_failure_aborts_witness :
    getRecording exStoreSync 3 = some exRecPending ∧
    exRecPending.status = RecStatus.pending_sync ∧
    (syncOneRecording apiEndFail exStoreSync 3).ok = false ∧
    (syncOneRecording apiEndFail exStoreSync 3).store = exStoreSync ∧
    (syncOneRecording apiEndFail exStoreSync 3).logs = [syncFailLog 3] ∧
    syncLoop apiEndFail exStoreSync [3] = syncLoop apiEndFail exStoreSync [] := by
  have h := syncOneRecording_failure_aborts apiEndFail exStoreSync 3
    exRecPending [] rfl rfl (by decide)
  exact ⟨rfl, rfl, by decide, h.1, h.2.1, h.2.2⟩

/-! ### C7 -/

/-- Does some recording row of the store carry this id? -/
def hasId (s : Store) (id : Nat) : Bool :=
  s.recordings.any fun r => decide (r.id = id)

/-- Propositional reading of `hasId`. -/
theorem hasId_true_iff (s : Store) (id : Nat) :
    hasId s id = true ↔ ∃ r ∈ s.recordings, r.id = id := by
  simp [hasId]

/-- Deleting a recording removes its id from the store. -/
theorem hasId_deleteRecording_self (s : Store) (id : Nat) :
    hasId (deleteRecording s id) id = false := by
  rw [Bool.eq_false_iff]
  intro h
  rcases (hasId_true_iff _ _).mp h with ⟨r, hr, hid⟩
  have hmem := List.mem_filter.mp hr
  simp only [decide_not, Bool.not_eq_eq_eq_not, Bool.not_true,
    decide_eq_false_iff_not] at hmem
  exact hmem.2 hid

/-- Deleting one recording leaves the presence of every other id alone. -/
theorem hasId_deleteRecording_other (s : Store) (id id' : Nat) (h : id ≠ id') :
    hasId (deleteRecording s id') id = hasId s id := by
  rw [Bool.eq_iff_iff, hasId_true_iff, hasId_true_iff]
  constructor
  · rintro ⟨r, hr, hid⟩
    exact ⟨r, (List.mem_filter.mp hr).1, hid⟩
  · rintro ⟨r, hr, hid⟩
    refine ⟨r, List.mem_filter.mpr ⟨hr, ?_⟩, hid⟩
    simp only [decide_not, Bool.not_eq_eq_eq_not, Bool.not_true,
      decide_eq_false_iff_not]
    intro hc
    exact h (hid ▸ hc)

/-- Deletion never makes an id appear. -/
theorem hasId_deleteRecording_mono (s : Store) (id' i : Nat)
    (h : hasId (deleteRecording s id') i = true) : hasId s i = true := by
  rcases (hasId_true_iff _ _).mp h with ⟨r, hr, hid⟩
  exact (hasId_true_iff _ _).mpr ⟨r, (List.mem_filter.mp hr).1, hid⟩

/-- The sync loop never inserts a recording row: an absent id stays absent. -/
theorem syncLoop_hasId_false (api : ApiModel) :
    ∀ (ids : List Nat) (s : Store) (i : Nat),
      hasId s i = false → hasId (syncLoop api s ids).1 i = false
  | [], _, _, h => h
  | id :: rest, s, i, h => by
    have hstep : hasId (syncOneRecording api s id).store i = false := by
      rcases syncOneRecording_dichotomy api s id with ⟨_, hdel⟩ | ⟨_, hs⟩
      · rw [hdel, Bool.eq_false_iff]
        rw [Bool.eq_false_iff] at h
        exact fun hc => h (hasId_deleteRecording_mono s id i hc)
      · rw [hs]; exact h
    simpa [syncLoop] using syncLoop_hasId_false api rest _ i hstep

/-- The sync loop deletes only the ids it processes: an id outside the list
stays present. -/
theorem syncLoop_hasId_true (api : ApiModel) :
    ∀ (ids : List Nat) (s : Store) (i : Nat), i ∉ ids →
      hasId s i = true → hasId (syncLoop api s ids).1 i = true
  | [], _, _, _, h => h
  | id :: rest, s, i, hni, h => by
    have hne : i ≠ id := fun hc => hni (hc ▸ List.mem_cons_self id rest)
    have hstep : hasId (syncOneRecording api s id).store i = true := by
      rcases syncOneRecording_dichotomy api s id with ⟨_, hdel⟩ | ⟨_, hs⟩
      · rw [hdel, hasId_deleteRecording_other s i id hne]; exact h
      · rw [hs]; exact h
    have hni' : i ∉ rest := fun hc => hni (List.mem_cons_of_mem id hc)
    simpa [syncLoop] using syncLoop_hasId_true api rest _ i hni' hstep

/-- Counting lemma for the sync loop: over pairwise-distinct ids that all
exist in the store, the returned count is the number of ids no longer present
when the loop finishes — i.e. the sessions whose pass went through deletion. -/
theorem syncLoop_count (api : ApiModel) :
    ∀ (ids : List Nat) (s : Store), ids.Nodup →
      (∀ i ∈ ids, hasId s i = true) →
      (syncLoop api s ids).2 =
        (ids.filter fun i => !hasId (syncLoop api s ids).1 i).length
  | [], s, _, _ => rfl
  | id :: rest, s, hnd, hpres => by
    rcases List.nodup_cons.mp hnd with ⟨hnotin, hndr⟩
    rcases syncOneRecording_dichotomy api s id with ⟨hok, hdel⟩ | ⟨hok, hs⟩
    · have hpres' : ∀ i ∈ rest, hasId (syncOneRecording api s id).store i = true := by
        intro i hi
        rw [hdel, hasId_deleteRecording_other s i id
          (fun hc => hnotin (hc ▸ hi))]
        exact hpres i (List.mem_cons_of_mem id hi)
      have ih := syncLoop_count api rest (syncOneRecording api s id).store
        hndr hpres'
      have hidgone :
          hasId (syncLoop api (syncOneRecording api s id).store rest).1 id =
            false := by
        apply syncLoop_hasId_false
        rw [hdel]
        exact hasId_deleteRecording_self s id
      simp only [syncLoop, hok, if_true, List.filter_cons, hidgone,
        Bool.not_false, if_pos, List.length_cons, ih]
      omega
    · have ih := syncLoop_count api rest s hndr
        (fun i hi => hpres i (List.mem_cons_of_mem id hi))
      have hidstay : hasId (syncLoop api s rest).1 id = true :=
        syncLoop_hasId_true api rest s id hnotin
          (hpres id (List.mem_cons_self id rest))
      simp only [syncLoop, hok, Bool.false_eq_true, if_false, hs,
        List.filter_cons, hidstay, Bool.not_true, ih]
      omega

/-- C7: running the engine offline is a no-op returning 0; with no
`pending_sync` session it is a no-op returning 0; and in general (given
distinct row ids) the returned count is exactly the number of pending
sessions whose whole sequence succeeded, i.e. whose row was deleted from the
local store by the end of the run. -/
theorem syncPendingRecordings_spec (api : ApiModel) (s : Store)
    (hnd : (s.recordings.map fun r => r.id).Nodup) :
    syncPendingRecordings api false s = (s, 0) ∧
    (getPendingSyncRecordings s = [] →
      syncPendingRecordings api true s = (s, 0)) ∧
    (syncPendingRecordings api true s).2 =
      ((getPendingSyncRecordings s).filter fun rec =>
        !hasId (syncPendingRecordings api true s).1 rec.id).length := by
  refine ⟨rfl, ?_, ?_⟩
  · intro h
    simp [syncPendingRecordings, h, syncLoop]
  · have hnd' : ((getPendingSyncRecordings s).map fun r => r.id).Nodup := by
      have hsub : List.Sublist (getPendingSyncRecordings s) s.recordings :=
        List.filter_sublist _
      exact (hsub.map fun r => r.id).nodup hnd
    have hpres :
        ∀ i ∈ (getPendingSyncRecordings s).map fun r => r.id,
          hasId s i = true := by
      intro i hi
      rcases List.mem_map.mp hi with ⟨r, hr, hid⟩
      exact (hasId_true_iff _ _).mpr ⟨r, (List.mem_filter.mp hr).1, hid⟩
    have h := syncLoop_count api
      ((getPendingSyncRecordings s).map fun r => r.id) s hnd' hpres
    simp only [syncPendingRecordings, if_true] at h ⊢
    rw [h, List.filter_map, List.length_map]
    rfl

/-- C7 witness: one pending session, all-success oracle — the run returns
count 1 and that session is the one deleted. -/
theorem syncPendingRecordings_spec_witness :
    (exStoreSync.recordings.map fun r => r.id).Nodup ∧
    syncPendingRecordings apiAllOk false exStoreSync = (exStoreSync, 0) ∧
    (syncPendingRecordings apiAllOk true exStoreSync).2 =
      ((getPendingSyncRecordings exStoreSync).filter fun rec =>
        !hasId (syncPendingRecordings apiAllOk true exStoreSync).1
          rec.id).length := by
  have h := syncPendingRecordings_spec apiAllOk exStoreSync (by decide)
  exact ⟨by decide, h.1, h.2.2⟩

/-! ### C9 -/

/-- C9: the background task body (a) logs task errors and returns without any
store write or notification; (b) is a no-op on an empty delivery; (c)
re-resolves the current recording session from the store's `in_progress`
status query and is a no-op (no insert, no touch, no notification) when there
is none; and (d) when that query yields `rec`, appends the mapped points to
`rec.id`, refreshes `rec.id`'s `lastActivityAt`, and notifies listeners with
the point count. -/
theorem backgroundLocationTask_spec (toIso : Nat → String) (now : String)
    (s : Store) (input : TaskInput) :
    (∀ e, input.error = some e →
      backgroundLocationTask toIso now s input =
        ⟨s, [], ["Background location task error: " ++ e]⟩) ∧
    (input.error = none → (input.data = none ∨ input.data = some []) →
      backgroundLocationTask toIso now s input = ⟨s, [], []⟩) ∧
    (input.error = none → getInProgressRecording s = none →
      backgroundLocationTask toIso now s input = ⟨s, [], []⟩) ∧
    (∀ rec locs, input.error = none → input.data = some locs → locs ≠ [] →
      getInProgressRecording s = some rec →
      backgroundLocationTask toIso now s input =
        ⟨touchRecording
            (addLocationPoints s rec.id (locs.map (locObjToPoint toIso)))
            rec.id now,
          [(locs.map (locObjToPoint toIso)).length], []⟩) := by
  refine ⟨?_, ?_, ?_, ?_⟩
  · intro e he
    simp [backgroundLocationTask, he]
  · intro he hd
    rcases hd with hd | hd
    · simp [backgroundLocationTask, he, hd]
    · simp [backgroundLocationTask, he, hd]
  · intro he hrec
    cases hd : input.data with
    | none => simp [backgroundLocationTask, he, hd]
    | some locs =>
      cases locs with
      | nil => simp [backgroundLocationTask, he, hd]
      | cons l ls => simp [backgroundLocationTask, he, hd, hrec]
  · intro rec locs he hd hne hrec
    have hlen : ¬ locs.length = 0 := by
      simpa [List.length_eq_zero] using hne
    simp [backgroundLocationTask, he, hd, hrec, hlen]

/-- Concrete stand-in for the platform's millisecond-to-ISO formatter. -/
def exToIso (ms : Nat) : String := "ms" ++ toString ms

/-- A delivered background location fix. -/
def exLoc : LocationObject :=
  { timestamp := 1000
    coords :=
      { latitude := 1, longitude := 2, altitude := none, speed := none,
        heading := none, accuracy := none, altitudeAccuracy := none } }

/-- C9 witness: a one-fix delivery against the store with the recording
session `exRec1` writes to the status-resolved id and notifies one point. -/
theorem backgroundLocationTask_spec_witness :
    getInProgressRecording exStore1 = some exRec1 ∧
    backgroundLocationTask exToIso "T3" exStore1
        { data := some [exLoc], error := none } =
      ⟨touchRecording
          (addLocationPoints exStore1 exRec1.id
            ([exLoc].map (locObjToPoint exToIso)))
          exRec1.id "T3",
        [([exLoc].map (locObjToPoint exToIso)).length], []⟩ :=
  ⟨rfl,
   (backgroundLocationTask_spec exToIso "T3" exStore1
      { data := some [exLoc], error := none }).2.2.2 exRec1 [exLoc] rfl rfl
     (by simp) rfl⟩
